import Mathlib

/-!
Verification of the M68HC05 microcontroller peripheral core
(src/devices/cpu/m6805/m68hc05.cpp): a shallow embedding of the on-chip
port, timer/counter, watchdog and interrupt state together with the
register access handlers, followed by theorems checking the specified
properties.  Machine integers are modelled as `Nat` with explicit masking
at the points where the C++ performs unsigned truncation.
-/

namespace M68HC05

/-- Interrupt line number of the external interrupt request line.
Modelled from the spec: the header declaring the input line enumeration is
not among the sources; the spec lists an external interrupt-request line
and the timer capture line as the interrupt sources. -/
def irqLine : Nat := 0

/-- Interrupt line number of the timer capture line (M68HC05_TCAP_LINE).
Modelled from the spec: the header declaring the input line enumeration is
not among the sources. -/
def tcapLine : Nat := 1

/-- Mask of recognised pending interrupt sources (M68HC05_INT_MASK).
Modelled from the spec: the header defining the mask is not among the
sources; the spec's interrupt controller recognises the external line and
the timer line. -/
def intMask : Nat := (1 <<< irqLine) ||| (1 <<< tcapLine)

/-- Interrupt mask flag of the condition code register (IFLAG).
Modelled from the spec: the M6805 family condition-code definitions are in
the missing m6805defs.h; the I flag occupies bit 3 of CC on this family. -/
def IFLAG : Nat := 0x08

/-- Peripheral state of an M68HC05 device: the mutable members of
m68hc05_device that the register handlers touch.  The four I/O ports are
kept as four-element lists indexed 0..3 (ports A..D); `irqState` mirrors
the base class's per-line input latch as a bit mask, and
`pendingInterrupts` is the 16-bit pending interrupt mask. -/
structure HC05 where
  portBits : List Nat
  portInput : List Nat
  portLatch : List Nat
  portDdr : List Nat
  tcapState : Bool
  tcr : Nat
  tsr : Nat
  tsrSeen : Nat
  prescaler : Nat
  counter : Nat
  icr : Nat
  ocr : Nat
  inhibitCap : Bool
  inhibitCmp : Bool
  trlBuf0 : Nat
  trlBuf1 : Nat
  trlLatched0 : Bool
  trlLatched1 : Bool
  pcopCnt : Nat
  ncopCnt : Nat
  coprst : Nat
  copcr : Nat
  ncope : Nat
  pendingInterrupts : Nat
  irqState : Nat
  deriving Repr, DecidableEq

/-- Element access into the four-entry port arrays. -/
def portGet (l : List Nat) (i : Nat) : Nat := l.getD i 0

/-- Set the pending-interrupt bit of the timer capture line. -/
def setTcapPending (s : HC05) : HC05 :=
  { s with pendingInterrupts := s.pendingInterrupts ||| (1 <<< tcapLine) }

/-- Clear the pending-interrupt bit of the timer capture line, mirroring
the C++ `m_pending_interrupts &= ~(u16(1) << M68HC05_TCAP_LINE)` on the
16-bit mask. -/
def clearTcapPending (s : HC05) : HC05 :=
  { s with pendingInterrupts := s.pendingInterrupts &&& (0xffff ^^^ (1 <<< tcapLine)) }

/-- m68hc05_device::set_port_bits.  The `configured`/`started` flags come
from the device framework; the C++ throws emu_fatalerror before touching
any state when either is set. -/
def set_port_bits (s : HC05) (configured started : Bool) (a b c d : Nat) :
    HC05 × Option String :=
  if configured || started then
    (s, some "Attempt to set physical port bits after configuration")
  else
    ({ s with portBits := [a, b, c, d] }, none)

/-- Modelled from the spec: the inline accessor port_value is declared in
the missing header m68hc05.h.  Per the spec the externally visible port
value is (cached input AND bits set as input) OR (output latch AND bits
set as output). -/
def port_value (s : HC05) (i : Nat) : Nat :=
  (portGet s.portInput i &&& (portGet s.portDdr i ^^^ 0xff)) |||
    (portGet s.portLatch i &&& portGet s.portDdr i)

/-- m68hc05_device::port_latch_w.  The second component records the
argument pair handed to the external output callback, when it is invoked. -/
def port_latch_w (s : HC05) (offset data : Nat) : HC05 × Option (Nat × Nat) :=
  let offset := offset &&& 3
  let data := data &&& portGet s.portBits offset
  let diff := portGet s.portLatch offset ^^^ data
  let s1 := { s with portLatch := s.portLatch.set offset data }
  if diff &&& portGet s.portDdr offset ≠ 0 then
    (s1, some (port_value s1 offset, portGet s1.portDdr offset))
  else
    (s1, none)

/-- m68hc05_device::port_ddr_r. -/
def port_ddr_r (s : HC05) (offset : Nat) : Nat := portGet s.portDdr (offset &&& 3)

/-- m68hc05_device::port_ddr_w.  The second component records the callback
invocation, when one happens. -/
def port_ddr_w (s : HC05) (offset data : Nat) : HC05 × Option (Nat × Nat) :=
  let offset := offset &&& 3
  let data := data &&& portGet s.portBits offset
  if data ≠ portGet s.portDdr offset then
    let s1 := { s with portDdr := s.portDdr.set offset data }
    (s1, some (port_value s1 offset, portGet s1.portDdr offset))
  else
    (s, none)

/-- Accessor tcr_olvl: OLVL is bit 0 of TCR (per the TCR write logging). -/
def tcr_olvl (s : HC05) : Bool := s.tcr.testBit 0

/-- Accessor tcr_iedg: IEDG is bit 1 of TCR (per the TCR write logging). -/
def tcr_iedg (s : HC05) : Bool := s.tcr.testBit 1

/-- Accessor copcr_copf: COPF is bit 4 of COPCR (the bit set on watchdog
fire by `m_copcr |= 0x10` and cleared by `m_copcr &= 0xef`). -/
def copcr_copf (s : HC05) : Bool := s.copcr.testBit 4

/-- Accessor copcr_pcope: PCOPE is bit 2 of COPCR (per the COPCR write
logging and the set-only mask overlap). -/
def copcr_pcope (s : HC05) : Bool := s.copcr.testBit 2

/-- Accessor copcr_cm: CM is the low two bits of COPCR. -/
def copcr_cm (s : HC05) : Nat := s.copcr &&& 0x03

/-- m68hc05_device::tcr_w. -/
def tcr_w (s : HC05) (data : Nat) : HC05 :=
  let data := data &&& 0xe3
  let s1 := { s with tcr := data }
  if s1.tcr &&& s1.tsr &&& 0xe0 ≠ 0 then setTcapPending s1 else clearTcapPending s1

/-- m68hc05_device::tsr_r.  `dbg` is the debugger_access flag of the
address space; reads return the value paired with the successor state. -/
def tsr_r (s : HC05) (dbg : Bool) : Nat × HC05 :=
  if !dbg then (s.tsr, { s with tsrSeen := s.tsr }) else (s.tsr, s)

/-- m68hc05_device::icr_r.  Bit 0 of the offset selects ICRL, otherwise
ICRH is read. -/
def icr_r (s : HC05) (dbg : Bool) (offset : Nat) : Nat × HC05 :=
  let low := offset.testBit 0
  let s1 :=
    if !dbg then
      if low then
        let s2 :=
          if s.tsrSeen.testBit 7 then
            let s3 := { s with tsr := s.tsr &&& 0x7f, tsrSeen := s.tsrSeen &&& 0x7f }
            if s3.tcr &&& s3.tsr &&& 0xe0 = 0 then clearTcapPending s3 else s3
          else s
        { s2 with inhibitCap := false }
      else
        { s with inhibitCap := true }
    else s
  ((s1.icr >>> (if low then 0 else 8)) &&& 0xff, s1)

/-- m68hc05_device::ocr_r. -/
def ocr_r (s : HC05) (dbg : Bool) (offset : Nat) : Nat × HC05 :=
  let low := offset.testBit 0
  let s1 :=
    if !dbg && low && s.tsrSeen.testBit 6 then
      let s2 := { s with tsr := s.tsr &&& 0xbf, tsrSeen := s.tsrSeen &&& 0xbf }
      if s2.tcr &&& s2.tsr &&& 0xe0 = 0 then clearTcapPending s2 else s2
    else s
  ((s1.ocr >>> (if low then 0 else 8)) &&& 0xff, s1)

/-- m68hc05_device::ocr_w. -/
def ocr_w (s : HC05) (dbg : Bool) (offset data : Nat) : HC05 :=
  let low := offset.testBit 0
  let s1 :=
    if !dbg then
      if low then
        let s2 :=
          if s.tsrSeen.testBit 6 then
            let s3 := { s with tsr := s.tsr &&& 0xbf, tsrSeen := s.tsrSeen &&& 0xbf }
            if s3.tcr &&& s3.tsr &&& 0xe0 = 0 then clearTcapPending s3 else s3
          else s
        { s2 with inhibitCmp := false }
      else
        { s with inhibitCmp := true }
    else s
  { s1 with ocr := (s1.ocr &&& (if low then 0xff00 else 0x00ff)) |||
      ((data &&& 0xff) <<< (if low then 0 else 8)) }

/-- Read accessor for the two TRL latch buffers, indexed by the alternate
channel flag. -/
def trlBuf (s : HC05) (alt : Bool) : Nat := if alt then s.trlBuf1 else s.trlBuf0

/-- Read accessor for the two TRL latch-pending flags. -/
def trlLatched (s : HC05) (alt : Bool) : Bool := if alt then s.trlLatched1 else s.trlLatched0

/-- Update one of the TRL latch buffers. -/
def setTrlBuf (s : HC05) (alt : Bool) (v : Nat) : HC05 :=
  if alt then { s with trlBuf1 := v } else { s with trlBuf0 := v }

/-- Update one of the TRL latch-pending flags. -/
def setTrlLatched (s : HC05) (alt : Bool) (v : Bool) : HC05 :=
  if alt then { s with trlLatched1 := v } else { s with trlLatched0 := v }

/-- m68hc05_device::timer_r.  Bit 0 of the offset selects the low byte,
bit 1 selects the alternate counter read channel. -/
def timer_r (s : HC05) (dbg : Bool) (offset : Nat) : Nat × HC05 :=
  let low := offset.testBit 0
  let alt := offset.testBit 1
  if low then
    let s1 :=
      if !dbg then
        let s2 := setTrlLatched s alt false
        if !alt && s2.tsrSeen.testBit 5 then
          let s3 := { s2 with tsr := s2.tsr &&& 0xdf, tsrSeen := s2.tsrSeen &&& 0xdf }
          if s3.tcr &&& s3.tsr &&& 0xe0 = 0 then clearTcapPending s3 else s3
        else s2
      else s
    (trlBuf s1 alt, s1)
  else
    if !dbg && !trlLatched s alt then
      let s1 := setTrlBuf (setTrlLatched s alt true) alt (s.counter &&& 0xff)
      ((s1.counter >>> 8) &&& 0xff, s1)
    else
      ((s.counter >>> 8) &&& 0xff, s)

/-- m68hc05_device::coprst_w. -/
def coprst_w (s : HC05) (data : Nat) : HC05 :=
  if data = 0x55 then
    { s with coprst := data }
  else if data = 0xaa then
    if s.coprst = 0x55 then { s with pcopCnt := s.pcopCnt &&& 0x00007fff, coprst := data }
    else { s with coprst := data }
  else s

/-- m68hc05_device::copcr_r.  The C++ body never consults the debugger
access flag: the COPF clear happens on every read. -/
def copcr_r (s : HC05) (_dbg : Bool) : Nat × HC05 :=
  (s.copcr, { s with copcr := s.copcr &&& 0xef })

/-- m68hc05_device::copcr_w.  PCOPE is set-only, hence the mask overlap. -/
def copcr_w (s : HC05) (data : Nat) : HC05 :=
  { s with copcr := (s.copcr &&& 0xf4) ||| (data &&& 0x0f) }

/-- m68hc05_device::copr_w. -/
def copr_w (s : HC05) (data : Nat) : HC05 :=
  if !data.testBit 0 then { s with ncopCnt := 0 } else s

/-- Result of m68hc05_device::burn_cycles: the successor state, the value
handed to the TCMP output callback when a non-inhibited compare match
occurs, and whether the programmable/non-programmable watchdog pulsed the
reset line. -/
structure BurnOut where
  state : HC05
  tcmp : Option Nat
  pcopReset : Bool
  ncopReset : Bool
  deriving Repr, DecidableEq

/-- m68hc05_device::burn_cycles.  Each member of the device is written at
most once by the C++ body, and every read happens before the write it
feeds (tcr and copcr are read before copcr is OR-ed, the fire comparison
reads the pre-update pcop counter, the rollover/compare tests use the
pre-update counter), so the sequential mutations are rendered as one
record assembly from values named after the C++ locals. -/
def burn_cycles (s : HC05) (count : Nat) : BurnOut :=
  let psOpt := 4
  let psMask := (1 <<< psOpt) - 1
  let increments := (count + (s.prescaler &&& psMask)) >>> psOpt
  let newCounter := s.counter + increments
  let timerRollover : Bool := decide (s.counter < 0x10000) && decide (0x10000 ≤ newCounter)
  let ocMatch : Bool := decide (s.ocr > s.counter) && decide (s.ocr ≤ newCounter)
  let tsr1 := if timerRollover then s.tsr ||| 0x20 else s.tsr
  let tsr2 := if ocMatch && !s.inhibitCmp then tsr1 ||| 0x40 else tsr1
  let tcmpOut := if ocMatch && !s.inhibitCmp then some (if tcr_olvl s then 1 else 0) else none
  let pending1 := if s.tcr &&& tsr2 &&& 0xe0 ≠ 0 then s.pendingInterrupts ||| (1 <<< tcapLine)
    else s.pendingInterrupts
  let pcopTimeout := 1 <<< ((copcr_cm s <<< 1) + 15)
  let pcopFire : Bool :=
    copcr_pcope s && decide (pcopTimeout ≤ (s.pcopCnt &&& (pcopTimeout - 1)) + count)
  let copcr1 := if pcopFire then s.copcr ||| 0x10 else s.copcr
  let ncop1 := s.ncopCnt + count
  let ncopFire : Bool := decide ((1 <<< 17) ≤ ncop1)
  ⟨{ s with
      prescaler := (count + s.prescaler) &&& psMask,
      counter := newCounter % 0x10000,
      tsr := tsr2,
      pendingInterrupts := pending1,
      copcr := copcr1,
      pcopCnt := (s.pcopCnt + count) &&& ((1 <<< 21) - 1),
      ncopCnt := ncop1 &&& ((1 <<< 17) - 1) },
    tcmpOut, pcopFire, ncopFire⟩

/-- m68hc05_device::execute_set_input.  The line state is a boolean
assertion level; the default branch mirrors the base-class pending logic. -/
def execute_set_input (s : HC05) (inputnum : Nat) (lineState : Bool) : HC05 :=
  if inputnum = tcapLine then
    let s1 :=
      if lineState ≠ s.tcapState ∧ lineState = tcr_iedg s then
        if !s.inhibitCap then
          let s2 := { s with tsr := s.tsr ||| 0x80, icr := s.counter }
          if s2.tcr &&& s2.tsr &&& 0xe0 ≠ 0 then setTcapPending s2 else s2
        else s
      else s
    { s1 with tcapState := lineState }
  else
    if s.irqState.testBit inputnum ≠ lineState then
      let s1 := { s with irqState := s.irqState ^^^ (1 <<< inputnum) }
      if lineState then
        { s1 with pendingInterrupts := s1.pendingInterrupts ||| (1 <<< inputnum) }
      else s1
    else s

/-- m68hc05_device::device_reset.  The body first calls
m6805_base_device::device_reset(), whose source is not among the files;
of the state modelled here that base reset owns the pending-interrupt
mask and the input line latches.  Modelled from the spec: the reset phase
"reinitializes a reset-affected subset of state" and the pending mask is
"cleared when serviced or when the enabling condition is no longer true";
since the m68hc05-level reset clears the TCR enable bits, no enabling
condition survives a reset, so the base reset is modelled as clearing the
pending-interrupt mask.  The input line latches track externally driven
levels, which a reset does not change; they are left as they are and no
theorem asserts anything about them.  The remainder mirrors
m68hc05.cpp:437-451; the TRL buffers take the low byte of the freshly
reset counter value 0xfffc.  The EPROM variant's overriding reset
additionally re-samples the NCOP enable latch from memory (set_ncope at
m68hc05.cpp:850); that variant layer is not part of this function. -/
def device_reset (s : HC05) : HC05 :=
  { s with
    pendingInterrupts := 0,
    portDdr := s.portDdr.map (fun _ => 0),
    tcr := s.tcr &&& 0x02,
    tsrSeen := 0x00,
    prescaler := 0,
    counter := 0xfffc,
    inhibitCap := false,
    inhibitCmp := false,
    trlBuf0 := 0xfffc &&& 0xff,
    trlBuf1 := 0xfffc &&& 0xff,
    trlLatched0 := false,
    trlLatched1 := false,
    ncopCnt := 0,
    copcr := s.copcr &&& 0x10 }

/-- Processor-level state needed by the interrupt entry sequence, wrapping
the peripheral state. -/
structure Machine where
  hc : HC05
  pc : Nat
  x : Nat
  a : Nat
  cc : Nat
  sp : Nat
  icount : Int
  deriving Repr, DecidableEq

/-- Modelled from the spec: the stack push helpers live in the missing
m6805 base sources.  The stack pointer stays within the family window
0x00c0..0x00ff and wraps; one push decrements it within that window. -/
def spPush (sp : Nat) : Nat := ((sp + 0xff) &&& 0xff) ||| 0xc0

/-- Timer interrupt vector address. -/
def M68HC05_VECTOR_TIMER : Nat := 0xfff8

/-- m68hc05_device::interrupt.  `mem` is the (read-only) bus used for the
vector fetch; the returned list is the byte sequence pushed onto the
stack, in push order, and the boolean records whether the interrupt
acknowledge callback was notified.  The fatal-error path aborts the whole
process in C++, so no successor state is produced for it. -/
def interrupt (mem : Nat → Nat) (m : Machine) : Except String (Machine × List Nat × Bool) :=
  if m.hc.pendingInterrupts &&& intMask ≠ 0 then
    if m.cc &&& IFLAG = 0 then
      let pushed := [m.pc &&& 0xff, (m.pc >>> 8) &&& 0xff, m.x, m.a, m.cc]
      let sp5 := spPush (spPush (spPush (spPush (spPush m.sp))))
      let cc1 := m.cc ||| IFLAG
      if m.hc.pendingInterrupts.testBit tcapLine then
        let pcv := ((mem M68HC05_VECTOR_TIMER &&& 0xff) <<< 8) |||
          (mem (M68HC05_VECTOR_TIMER + 1) &&& 0xff)
        Except.ok
          ({ m with
              hc := (burn_cycles m.hc 10).state
              pc := pcv
              cc := cc1
              sp := sp5
              icount := m.icount - 10 }, pushed, true)
      else
        Except.error "Unknown pending interrupt"
    else
      Except.ok (m, [], false)
  else
    Except.ok (m, [], false)

/-- One externally observable operation on the peripheral state: a
program-initiated register access, an input line transition, or a batch of
cycles charged by the execution core. -/
inductive Ev where
  | tcrW (d : Nat)
  | tsrR
  | icrR (off : Nat)
  | ocrR (off : Nat)
  | ocrW (off d : Nat)
  | timerR (off : Nat)
  | coprstW (d : Nat)
  | copcrR
  | copcrW (d : Nat)
  | coprW (d : Nat)
  | portLatchW (i d : Nat)
  | portDdrW (i d : Nat)
  | setInput (n : Nat) (st : Bool)
  | burn (n : Nat)
  deriving Repr, DecidableEq

/-- Apply one operation to the peripheral state, discarding read values
and callback outputs. -/
def stepEv (s : HC05) : Ev → HC05
  | .tcrW d => tcr_w s d
  | .tsrR => (tsr_r s false).2
  | .icrR off => (icr_r s false off).2
  | .ocrR off => (ocr_r s false off).2
  | .ocrW off d => ocr_w s false off d
  | .timerR off => (timer_r s false off).2
  | .coprstW d => coprst_w s d
  | .copcrR => (copcr_r s false).2
  | .copcrW d => copcr_w s d
  | .coprW d => copr_w s d
  | .portLatchW i d => (port_latch_w s i d).1
  | .portDdrW i d => (port_ddr_w s i d).1
  | .setInput n st => execute_set_input s n st
  | .burn n => (burn_cycles s n).state

/-- Run a list of operations left to right. -/
def runEv (s : HC05) : List Ev → HC05
  | [] => s
  | e :: es => runEv (stepEv s e) es

/-- Enabling condition of the timer interrupt: some enabled timer status
flag is set (the guard `m_tcr & m_tsr & 0xe0` used throughout the C++). -/
def tcapCond (s : HC05) : Prop := s.tcr &&& s.tsr &&& 0xe0 ≠ 0

instance (s : HC05) : Decidable (tcapCond s) :=
  inferInstanceAs (Decidable (s.tcr &&& s.tsr &&& 0xe0 ≠ 0))

/-- Invariant tying the timer's pending-interrupt bit to its enabling
condition: whenever the bit is set, some enabled timer status flag is set. -/
def TcapInv (s : HC05) : Prop :=
  s.pendingInterrupts.testBit tcapLine = true → tcapCond s

instance (s : HC05) : Decidable (TcapInv s) :=
  inferInstanceAs (Decidable (s.pendingInterrupts.testBit tcapLine = true → tcapCond s))

/-- Peripheral state right after construction and configuration of one of
the covered variants (ports idle high, port D physical bits 0xbf, DDRs
clear, counter at 0xfffc, watchdogs and pending interrupts clear). -/
def s0 : HC05 :=
  ⟨[0xff, 0xff, 0xff, 0xbf], [0xff, 0xff, 0xff, 0xff], [0xff, 0xff, 0xff, 0xff],
   [0, 0, 0, 0], false, 0, 0, 0, 0, 0xfffc, 0, 0, false, false, 0xfc, 0xfc,
   false, false, 0, 0, 0, 0, 0, 0, 0⟩

/-- State with the watchdog fired-status bit COPF latched. -/
def exC1 : HC05 := { s0 with copcr := 0x10 }

/-- State whose programmable watchdog counter has bits 20..15 and bit 0 set. -/
def exC3 : HC05 := { s0 with pcopCnt := 0x1f8001 }

/-- State with the programmable watchdog enabled (PCOPE set) and timeout
field 0, counter cleared. -/
def exC4 : HC05 := { s0 with copcr := 0x04 }

/-- State with the free-running counter at 0xfffe and no prescaler carry. -/
def exC5 : HC05 := { s0 with counter := 0xfffe, prescaler := 0 }

/-- Machine with only the external interrupt line pending and interrupts
unmasked. -/
def exC6 : Machine := ⟨{ s0 with pendingInterrupts := 1 <<< irqLine }, 0x100, 1, 2, 0, 0xff, 100⟩

/-- Machine with only the timer interrupt pending and interrupts unmasked. -/
def exC6T : Machine := ⟨{ s0 with pendingInterrupts := 1 <<< tcapLine }, 0x1234, 1, 2, 0, 0xff, 100⟩

/-- Trivial vector memory used by the concrete interrupt instances. -/
def exMem : Nat → Nat := fun _ => 0

/-- State whose TRL latch buffer differs from the reset value. -/
def exC10 : HC05 := { s0 with trlBuf0 := 0x00 }

/-- Number of prescaled counter increments produced by charging `count`
cycles: sixteen cycles per increment, with the sub-16 carry taken from the
prescaler. -/
def incB (s : HC05) (count : Nat) : Nat := (count + (s.prescaler &&& 15)) >>> 4

/-- Rollover condition of one burn_cycles call. -/
def roB (s : HC05) (count : Nat) : Bool :=
  decide (s.counter < 0x10000) && decide (0x10000 ≤ s.counter + incB s count)

/-- Effective (non-inhibited) output-compare match condition of one
burn_cycles call. -/
def cmpB (s : HC05) (count : Nat) : Bool :=
  (decide (s.ocr > s.counter) && decide (s.ocr ≤ s.counter + incB s count)) && !s.inhibitCmp

/-- Timer status register after one burn_cycles call. -/
def tsrB (s : HC05) (count : Nat) : Nat :=
  if cmpB s count then (if roB s count then s.tsr ||| 0x20 else s.tsr) ||| 0x40
  else (if roB s count then s.tsr ||| 0x20 else s.tsr)

/-- Pending-interrupt mask after one burn_cycles call. -/
def pendB (s : HC05) (count : Nat) : Nat :=
  if s.tcr &&& tsrB s count &&& 0xe0 ≠ 0 then s.pendingInterrupts ||| (1 <<< tcapLine)
  else s.pendingInterrupts

/-- Programmable watchdog fire condition of one burn_cycles call. -/
def fireB (s : HC05) (count : Nat) : Bool :=
  s.copcr.testBit 2 &&
    decide ((1 <<< (((s.copcr &&& 3) <<< 1) + 15)) ≤
      (s.pcopCnt &&& ((1 <<< (((s.copcr &&& 3) <<< 1) + 15)) - 1)) + count)

theorem testBit_land_right_false {m : Nat} (x : Nat) {i : Nat}
    (h : m.testBit i = false) : (x &&& m).testBit i = false := by
  rw [Nat.testBit_land, h, Bool.and_false]

theorem testBit_land_right_true {m : Nat} (x : Nat) {i : Nat}
    (h : m.testBit i = true) : (x &&& m).testBit i = x.testBit i := by
  rw [Nat.testBit_land, h, Bool.and_true]

theorem testBit_lor_right_false {m : Nat} (x : Nat) {i : Nat}
    (h : m.testBit i = false) : (x ||| m).testBit i = x.testBit i := by
  rw [Nat.testBit_lor, h, Bool.or_false]

theorem testBit_lor_right_true {m : Nat} (x : Nat) {i : Nat}
    (h : m.testBit i = true) : (x ||| m).testBit i = true := by
  rw [Nat.testBit_lor, h, Bool.or_true]

theorem testBit_lor_shift_ne (p : Nat) {n i : Nat} (h : n ≠ i) :
    (p ||| (1 <<< n)).testBit i = p.testBit i := by
  apply testBit_lor_right_false
  rw [Nat.shiftLeft_eq, one_mul]
  exact Nat.testBit_two_pow_of_ne h

theorem land_lor_mono {a b c : Nat} (e : Nat) (h : a &&& b &&& c ≠ 0) :
    a &&& (b ||| e) &&& c ≠ 0 := by
  intro h0
  apply h
  apply Nat.eq_of_testBit_eq
  intro i
  have hy := congrArg (fun x => Nat.testBit x i) h0
  simp only [Nat.testBit_land, Nat.testBit_lor, Nat.zero_testBit] at hy ⊢
  revert hy
  cases a.testBit i <;> cases b.testBit i <;> cases c.testBit i <;>
    cases e.testBit i <;> simp

theorem setTcapPending_testBit (s : HC05) :
    (setTcapPending s).pendingInterrupts.testBit tcapLine = true := by
  apply testBit_lor_right_true
  decide

theorem clearTcapPending_testBit (s : HC05) :
    (clearTcapPending s).pendingInterrupts.testBit tcapLine = false := by
  apply testBit_land_right_false
  decide

theorem portGet_map_zero (l : List Nat) (i : Nat) :
    portGet (l.map (fun _ => 0)) i = 0 := by
  induction l generalizing i with
  | nil => simp [portGet]
  | cons a t ih =>
    cases i with
    | zero => simp [portGet]
    | succ n => simp [portGet]

/-- C1 counterexample: the claim asserts that a debugger access never
clears any status bit, including COPF in COPCR; but copcr_r performs the
COPF clear unconditionally, so a debugger read of COPCR with COPF latched
mutates the state and loses the flag. -/
theorem c1_counterexample :
    copcr_copf exC1 = true ∧ (copcr_r exC1 true).2 ≠ exC1 ∧
    copcr_copf (copcr_r exC1 true).2 = false := by decide

/-- C1 amended: debugger accesses to the timer registers (TSR, ICR, OCR
reads, TR/ATR reads) leave the whole device state unchanged, and a
debugger OCR write updates only the stored compare value, never the inhibit
flags, the seen shadow, or status bits; however a COPCR read clears the
COPF status bit regardless of the debugger flag, so COPCR inspection is
not side-effect-free. -/
theorem c1_debugger_access (s : HC05) (off d : Nat) (dbg : Bool) :
    (tsr_r s true).2 = s ∧
    (icr_r s true off).2 = s ∧
    (ocr_r s true off).2 = s ∧
    (timer_r s true off).2 = s ∧
    ocr_w s true off d = { s with ocr := (ocr_w s true off d).ocr } ∧
    (copcr_r s dbg).2 = { s with copcr := s.copcr &&& 0xef } := by
  refine ⟨rfl, rfl, rfl, ?_, rfl, rfl⟩
  cases hl : off.testBit 0 <;> simp [timer_r, hl]

/-- C3 counterexample: the claim requires the two arming writes to be
consecutive, with an intervening different write cancelling the sequence,
and says a successful sequence clears the LOW 15 bits of the counter.  In
the code an intervening 0x00 write leaves the recorded arm byte at 0x55,
so the following 0xAA write still masks the counter, and the mask
`&= 0x00007fff` KEEPS the low 15 bits, clearing bits 15..20 instead: from
counter 0x1f8001 the sequence 0x55, 0x00, 0xAA yields 0x000001, while the
claim predicts the counter unchanged (0x1f8001), and even a granted clear
would have to give 0x1f8000. -/
theorem c3_counterexample :
    (coprst_w (coprst_w (coprst_w exC3 0x55) 0x00) 0xaa).pcopCnt = 0x000001 ∧
    exC3.pcopCnt = 0x1f8001 := by decide

/-- C3 amended: a write of 0x55 records the arm byte and leaves the
counter untouched; a write of 0xAA while the recorded byte is 0x55 masks
the counter to its low 15 bits (clearing bits 15..20) and records 0xAA; a
write of 0xAA with any other recorded byte only records 0xAA; a write of
any other value changes nothing at all — in particular it does not cancel
a previously recorded 0x55. -/
theorem c3_coprst_w (s : HC05) (d : Nat) :
    (d ≠ 0x55 → d ≠ 0xaa → coprst_w s d = s) ∧
    coprst_w s 0x55 = { s with coprst := 0x55 } ∧
    (s.coprst = 0x55 →
      coprst_w s 0xaa = { s with pcopCnt := s.pcopCnt &&& 0x7fff, coprst := 0xaa }) ∧
    (s.coprst ≠ 0x55 → coprst_w s 0xaa = { s with coprst := 0xaa }) := by
  refine ⟨fun h1 h2 => ?_, rfl, fun h => ?_, fun h => ?_⟩ <;>
    simp [coprst_w, *]

/-- Witness for the amended C3 theorem at concrete inputs: a 0x33 write
leaves the state alone, and a 0xAA write after a recorded 0x55 masks the
counter to its low 15 bits. -/
theorem c3_coprst_w_witness :
    coprst_w exC3 0x33 = exC3 ∧
    coprst_w { exC3 with coprst := 0x55 } 0xaa =
      { { exC3 with coprst := 0x55 } with
          pcopCnt := ({ exC3 with coprst := 0x55 } : HC05).pcopCnt &&& 0x7fff
          coprst := 0xaa } :=
  ⟨(c3_coprst_w exC3 0x33).1 (by decide) (by decide),
   (c3_coprst_w { exC3 with coprst := 0x55 } 0xaa).2.2.1 rfl⟩

/-- C9: set_port_bits raises the fatal configuration error exactly when
the device is already configured or started, leaving the physical port
bit masks (indeed the whole state) unchanged; before configuration it
stores the four given masks. -/
theorem c9_set_port_bits (s : HC05) (cfg std : Bool) (a b c d : Nat) :
    ((cfg || std) = true →
      set_port_bits s cfg std a b c d =
        (s, some "Attempt to set physical port bits after configuration")) ∧
    ((cfg || std) = false →
      set_port_bits s cfg std a b c d = ({ s with portBits := [a, b, c, d] }, none)) := by
  constructor <;> intro h <;> simp [set_port_bits, h]

/-- Witness for C9 at concrete inputs: both the configured and the
unconfigured branch. -/
theorem c9_set_port_bits_witness :
    set_port_bits s0 true false 1 2 3 4 =
      (s0, some "Attempt to set physical port bits after configuration") ∧
    set_port_bits s0 false false 1 2 3 4 = ({ s0 with portBits := [1, 2, 3, 4] }, none) :=
  ⟨(c9_set_port_bits s0 true false 1 2 3 4).1 (by decide),
   (c9_set_port_bits s0 false false 1 2 3 4).2 (by decide)⟩

/-- C10 counterexample: the claim's enumeration of the reset-affected
state omits the TRL latch buffers, yet device_reset reinitializes both to
0xfc (the low byte of the reset counter value): a state whose buffer
holds 0x00 is changed by reset outside the claimed subset. -/
theorem c10_counterexample : (device_reset exC10).trlBuf0 ≠ exC10.trlBuf0 := by decide

/-- C10 amended: a device reset — the m68hc05-level reset composed with
the base-class reset, the latter modelled from the spec as clearing the
pending-interrupt mask — zeroes the four DDRs, clears TCR except the
edge-polarity bit 1, zeroes the seen shadow and prescaler, sets the
counter to 0xfffc, clears both inhibit flags and both latch-pending
flags, sets BOTH TRL latch buffers to 0xfc, zeroes the non-programmable
watchdog counter, clears COPCR except the COPF bit 4, and clears the
pending-interrupt mask — leaving the physical bits, port input and
output latches, the capture line state, the timer status flags, the
capture and compare registers, the programmable watchdog counter and the
arming byte unchanged.  The NCOP enable latch is re-sampled from memory
by the EPROM variant's own reset layer and the input line latches belong
to the missing base core, so nothing is asserted about either. -/
theorem c10_device_reset (s : HC05) (i j : Nat) :
    (j ≠ 1 → (device_reset s).tcr.testBit j = false) ∧
    (j ≠ 4 → (device_reset s).copcr.testBit j = false) ∧
    portGet (device_reset s).portDdr i = 0 ∧
    (device_reset s).tcr.testBit 1 = s.tcr.testBit 1 ∧
    (device_reset s).copcr.testBit 4 = s.copcr.testBit 4 ∧
    (device_reset s).tsrSeen = 0 ∧
    (device_reset s).prescaler = 0 ∧
    (device_reset s).counter = 0xfffc ∧
    (device_reset s).inhibitCap = false ∧
    (device_reset s).inhibitCmp = false ∧
    (device_reset s).trlBuf0 = 0xfc ∧
    (device_reset s).trlBuf1 = 0xfc ∧
    (device_reset s).trlLatched0 = false ∧
    (device_reset s).trlLatched1 = false ∧
    (device_reset s).ncopCnt = 0 ∧
    (device_reset s).pendingInterrupts = 0 ∧
    (device_reset s).portBits = s.portBits ∧
    (device_reset s).portInput = s.portInput ∧
    (device_reset s).portLatch = s.portLatch ∧
    (device_reset s).tcapState = s.tcapState ∧
    (device_reset s).tsr = s.tsr ∧
    (device_reset s).icr = s.icr ∧
    (device_reset s).ocr = s.ocr ∧
    (device_reset s).pcopCnt = s.pcopCnt ∧
    (device_reset s).coprst = s.coprst := by
  refine ⟨fun h => ?_, fun h => ?_, portGet_map_zero s.portDdr i, ?_, ?_,
    rfl, rfl, rfl, rfl, rfl, rfl, rfl, rfl, rfl, rfl, rfl, rfl, rfl, rfl,
    rfl, rfl, rfl, rfl, rfl, rfl⟩
  · show (s.tcr &&& 0x02).testBit j = false
    apply testBit_land_right_false
    have h2 : (0x02 : Nat) = 2 ^ 1 := by decide
    rw [h2]
    exact Nat.testBit_two_pow_of_ne (Ne.symm h)
  · show (s.copcr &&& 0x10).testBit j = false
    apply testBit_land_right_false
    have h2 : (0x10 : Nat) = 2 ^ 4 := by decide
    rw [h2]
    exact Nat.testBit_two_pow_of_ne (Ne.symm h)
  · show (s.tcr &&& 0x02).testBit 1 = s.tcr.testBit 1
    apply testBit_land_right_true
    decide
  · show (s.copcr &&& 0x10).testBit 4 = s.copcr.testBit 4
    apply testBit_land_right_true
    decide

theorem burn_cycles_eq (s : HC05) (count : Nat) :
    burn_cycles s count =
      ⟨{ s with
          prescaler := (count + s.prescaler) &&& 15,
          counter := (s.counter + incB s count) % 0x10000,
          tsr := tsrB s count,
          pendingInterrupts := pendB s count,
          copcr := if fireB s count then s.copcr ||| 0x10 else s.copcr,
          pcopCnt := (s.pcopCnt + count) &&& 0x1fffff,
          ncopCnt := (s.ncopCnt + count) &&& 0x1ffff },
        if cmpB s count then some (if s.tcr.testBit 0 then 1 else 0) else none,
        fireB s count,
        decide ((1 <<< 17) ≤ s.ncopCnt + count)⟩ := rfl

/-- C5 counterexample: with the counter at 0xfffe and no prescaler carry,
charging 4 cycles leaves the counter at 0xfffe with the overflow flag
clear — the prescaler divides by sixteen, so 4 cycles produce no counter
tick at all, contradicting the claimed single prescaled tick landing the
counter in 0x0000..0x0002 with the overflow flag set. -/
theorem c5_counterexample :
    (burn_cycles exC5 4).state.counter = 0xfffe ∧
    (burn_cycles exC5 4).state.tsr.testBit 5 = false ∧
    ¬((burn_cycles exC5 4).state.counter ≤ 2) := by decide

/-- C5 amended: the counter advances once per SIXTEEN accumulated cycles
(the sub-16 remainder carried across calls in the prescaler), and the
overflow flag is set exactly when the counter wraps through 0x10000; from
counter 0xfffe with no carry, 4 cycles leave the counter untouched, 16
cycles move it to 0xffff, and 32 cycles wrap it to 0x0000 setting the
overflow flag exactly once. -/
theorem c5_counter_law (s : HC05) (count : Nat) :
    (burn_cycles s count).state.counter =
      (s.counter + ((count + (s.prescaler &&& 15)) >>> 4)) % 0x10000 ∧
    (burn_cycles s count).state.prescaler = (count + s.prescaler) &&& 15 ∧
    (burn_cycles s count).state.tsr.testBit 5 =
      (s.tsr.testBit 5 ||
        (decide (s.counter < 0x10000) &&
          decide (0x10000 ≤ s.counter + ((count + (s.prescaler &&& 15)) >>> 4)))) ∧
    (burn_cycles exC5 16).state.counter = 0xffff ∧
    (burn_cycles exC5 16).state.tsr.testBit 5 = false ∧
    (burn_cycles exC5 32).state.counter = 0x0000 ∧
    (burn_cycles exC5 32).state.tsr.testBit 5 = true := by
  refine ⟨rfl, rfl, ?_, by decide, by decide, by decide, by decide⟩
  have t32 : Nat.testBit 32 5 = true := by decide
  have t64 : Nat.testBit 64 5 = false := by decide
  have h : (tsrB s count).testBit 5 = (s.tsr.testBit 5 || roB s count) := by
    unfold tsrB
    cases hro : roB s count <;> cases hcmp : cmpB s count <;>
      simp [Nat.testBit_lor, t32, t64]
  exact h

/-- C4 counterexample: the claim makes firing conditional on the absence
of an intervening successful 0x55/0xAA clear sequence, but the sequence
masks the counter to its LOW 15 bits, which with timeout field 0 are
exactly the bits compared against the threshold: after 2^15-1 cycles a
successful clear sequence leaves the effective count at 32767, and the
very next cycle still fires the watchdog. -/
theorem c4_counterexample :
    (burn_cycles exC4 32767).pcopReset = false ∧
    (coprst_w (coprst_w (burn_cycles exC4 32767).state 0x55) 0xaa).coprst = 0xaa ∧
    (coprst_w (coprst_w (burn_cycles exC4 32767).state 0x55) 0xaa).pcopCnt = 32767 ∧
    (burn_cycles (coprst_w (coprst_w (burn_cycles exC4 32767).state 0x55) 0xaa) 1).pcopReset
      = true := by decide

/-- C4 amended: a burn_cycles call pulses the watchdog reset and latches
COPF exactly when PCOPE is set and the counter's low (2*CM+15) bits plus
the charged cycle count reach 2^(2*CM+15); the watchdog counter itself
advances by the charged count modulo 2^21.  With timeout field 0 and a
cleared counter, 2^15-1 cycles do not fire it and one further cycle
pulses reset and latches the status bit. -/
theorem c4_pcop_watchdog (s : HC05) (count : Nat) :
    (burn_cycles s count).pcopReset =
      (copcr_pcope s &&
        decide ((1 <<< (((s.copcr &&& 3) <<< 1) + 15)) ≤
          (s.pcopCnt &&& ((1 <<< (((s.copcr &&& 3) <<< 1) + 15)) - 1)) + count)) ∧
    copcr_copf (burn_cycles s count).state = (copcr_copf s || (burn_cycles s count).pcopReset) ∧
    (burn_cycles s count).state.pcopCnt = (s.pcopCnt + count) &&& 0x1fffff ∧
    (burn_cycles exC4 32767).pcopReset = false ∧
    copcr_copf (burn_cycles exC4 32767).state = false ∧
    (burn_cycles (burn_cycles exC4 32767).state 1).pcopReset = true ∧
    copcr_copf (burn_cycles (burn_cycles exC4 32767).state 1).state = true := by
  refine ⟨rfl, ?_, rfl, by decide, by decide, by decide, by decide⟩
  have h : copcr_copf (burn_cycles s count).state = (copcr_copf s || fireB s count) := by
    show (if fireB s count then s.copcr ||| 0x10 else s.copcr).testBit 4 =
      (s.copcr.testBit 4 || fireB s count)
    cases hf : fireB s count
    · simp
    · rw [if_pos rfl, testBit_lor_right_true _ (by decide : Nat.testBit 0x10 4 = true),
        Bool.or_true]
  exact h

/-- Normal-access characterizations of the timer register handlers: each
flag-clearing access rendered as a flat conditional state. -/
theorem icr_r_low_eq (s : HC05) : (icr_r s false 1).2 =
    if s.tsrSeen.testBit 7 then
      (if s.tcr &&& (s.tsr &&& 0x7f) &&& 0xe0 = 0 then
        { s with
            tsr := s.tsr &&& 0x7f
            tsrSeen := s.tsrSeen &&& 0x7f
            inhibitCap := false
            pendingInterrupts := s.pendingInterrupts &&& (0xffff ^^^ (1 <<< tcapLine)) }
      else
        { s with
            tsr := s.tsr &&& 0x7f
            tsrSeen := s.tsrSeen &&& 0x7f
            inhibitCap := false })
    else { s with inhibitCap := false } := by
  cases h7 : s.tsrSeen.testBit 7 <;> simp [icr_r, clearTcapPending, h7]
  all_goals try (split <;> rfl)

theorem ocr_r_low_eq (s : HC05) : (ocr_r s false 1).2 =
    if s.tsrSeen.testBit 6 then
      (if s.tcr &&& (s.tsr &&& 0xbf) &&& 0xe0 = 0 then
        { s with
            tsr := s.tsr &&& 0xbf
            tsrSeen := s.tsrSeen &&& 0xbf
            pendingInterrupts := s.pendingInterrupts &&& (0xffff ^^^ (1 <<< tcapLine)) }
      else
        { s with
            tsr := s.tsr &&& 0xbf
            tsrSeen := s.tsrSeen &&& 0xbf })
    else s := by
  cases h6 : s.tsrSeen.testBit 6 <;> simp [ocr_r, clearTcapPending, h6]

theorem ocr_w_low_eq (s : HC05) (d : Nat) : ocr_w s false 1 d =
    if s.tsrSeen.testBit 6 then
      (if s.tcr &&& (s.tsr &&& 0xbf) &&& 0xe0 = 0 then
        { s with
            tsr := s.tsr &&& 0xbf
            tsrSeen := s.tsrSeen &&& 0xbf
            inhibitCmp := false
            pendingInterrupts := s.pendingInterrupts &&& (0xffff ^^^ (1 <<< tcapLine))
            ocr := (s.ocr &&& 0xff00) ||| ((d &&& 0xff) <<< 0) }
      else
        { s with
            tsr := s.tsr &&& 0xbf
            tsrSeen := s.tsrSeen &&& 0xbf
            inhibitCmp := false
            ocr := (s.ocr &&& 0xff00) ||| ((d &&& 0xff) <<< 0) })
    else
      { s with
          inhibitCmp := false
          ocr := (s.ocr &&& 0xff00) ||| ((d &&& 0xff) <<< 0) } := by
  cases h6 : s.tsrSeen.testBit 6 <;> simp [ocr_w, clearTcapPending, h6]
  all_goals try (split <;> rfl)

theorem timer_r_trl_eq (s : HC05) : (timer_r s false 1).2 =
    if s.tsrSeen.testBit 5 then
      (if s.tcr &&& (s.tsr &&& 0xdf) &&& 0xe0 = 0 then
        { s with
            trlLatched0 := false
            tsr := s.tsr &&& 0xdf
            tsrSeen := s.tsrSeen &&& 0xdf
            pendingInterrupts := s.pendingInterrupts &&& (0xffff ^^^ (1 <<< tcapLine)) }
      else
        { s with
            trlLatched0 := false
            tsr := s.tsr &&& 0xdf
            tsrSeen := s.tsrSeen &&& 0xdf })
    else { s with trlLatched0 := false } := by
  have t11 : Nat.testBit 1 1 = false := by decide
  cases h5 : s.tsrSeen.testBit 5 <;>
    simp [timer_r, clearTcapPending, setTrlLatched, t11, h5]

theorem timer_r_atrl_eq (s : HC05) :
    (timer_r s false 3).2 = { s with trlLatched1 := false } := by
  have t31 : Nat.testBit 3 1 = true := by decide
  simp [timer_r, setTrlLatched, t31]

theorem timer_r_trh_eq (s : HC05) : (timer_r s false 0).2 =
    if s.trlLatched0 then s
    else { s with trlLatched0 := true, trlBuf0 := s.counter &&& 0xff } := by
  cases hl : s.trlLatched0 <;> simp [timer_r, setTrlLatched, setTrlBuf, trlLatched, hl]

theorem timer_r_atrh_eq (s : HC05) : (timer_r s false 2).2 =
    if s.trlLatched1 then s
    else { s with trlLatched1 := true, trlBuf1 := s.counter &&& 0xff } := by
  have t21 : Nat.testBit 2 1 = true := by decide
  cases hl : s.trlLatched1 <;> simp [timer_r, setTrlLatched, setTrlBuf, trlLatched, t21, hl]



/-- C2: a program read of TSR leaves the three status flags exactly as
they were and only records the seen shadow; each flag is cleared exactly
by a program access of its specific paired low register while seen (ICRL
for capture, OCRL read or write for compare, TRL for overflow), which
never disturbs the other two flags; ATRL and the high-byte accesses touch
neither TSR nor the seen shadow; and a second access of the paired low
register without an intervening status read changes nothing further. -/
theorem c2_read_to_clear (s : HC05) (d : Nat) :
    (tsr_r s false).1 = s.tsr ∧
    (tsr_r s false).2 = { s with tsrSeen := s.tsr } ∧
    (icr_r s false 1).2.tsr.testBit 7 = (s.tsr.testBit 7 && !s.tsrSeen.testBit 7) ∧
    (icr_r s false 1).2.tsr.testBit 6 = s.tsr.testBit 6 ∧
    (icr_r s false 1).2.tsr.testBit 5 = s.tsr.testBit 5 ∧
    (ocr_r s false 1).2.tsr.testBit 6 = (s.tsr.testBit 6 && !s.tsrSeen.testBit 6) ∧
    (ocr_r s false 1).2.tsr.testBit 7 = s.tsr.testBit 7 ∧
    (ocr_r s false 1).2.tsr.testBit 5 = s.tsr.testBit 5 ∧
    (ocr_w s false 1 d).tsr.testBit 6 = (s.tsr.testBit 6 && !s.tsrSeen.testBit 6) ∧
    (ocr_w s false 1 d).tsr.testBit 7 = s.tsr.testBit 7 ∧
    (ocr_w s false 1 d).tsr.testBit 5 = s.tsr.testBit 5 ∧
    (timer_r s false 1).2.tsr.testBit 5 = (s.tsr.testBit 5 && !s.tsrSeen.testBit 5) ∧
    (timer_r s false 1).2.tsr.testBit 7 = s.tsr.testBit 7 ∧
    (timer_r s false 1).2.tsr.testBit 6 = s.tsr.testBit 6 ∧
    (timer_r s false 3).2.tsr = s.tsr ∧
    (timer_r s false 3).2.tsrSeen = s.tsrSeen ∧
    (timer_r s false 0).2.tsr = s.tsr ∧
    (timer_r s false 0).2.tsrSeen = s.tsrSeen ∧
    (icr_r s false 0).2 = { s with inhibitCap := true } ∧
    (ocr_r s false 0).2 = s ∧
    ocr_w s false 0 d =
      { s with inhibitCmp := true, ocr := (s.ocr &&& 0x00ff) ||| ((d &&& 0xff) <<< 8) } ∧
    (icr_r (icr_r s false 1).2 false 1).2 = (icr_r s false 1).2 ∧
    (ocr_r (ocr_r s false 1).2 false 1).2 = (ocr_r s false 1).2 ∧
    (timer_r (timer_r s false 1).2 false 1).2 = (timer_r s false 1).2 := by
  have l7 : ∀ x : Nat, (x &&& 0x7f).testBit 7 = false :=
    fun x => testBit_land_right_false x (by decide)
  have l76 : ∀ x : Nat, (x &&& 0x7f).testBit 6 = x.testBit 6 :=
    fun x => testBit_land_right_true x (by decide)
  have l75 : ∀ x : Nat, (x &&& 0x7f).testBit 5 = x.testBit 5 :=
    fun x => testBit_land_right_true x (by decide)
  have l6 : ∀ x : Nat, (x &&& 0xbf).testBit 6 = false :=
    fun x => testBit_land_right_false x (by decide)
  have l67 : ∀ x : Nat, (x &&& 0xbf).testBit 7 = x.testBit 7 :=
    fun x => testBit_land_right_true x (by decide)
  have l65 : ∀ x : Nat, (x &&& 0xbf).testBit 5 = x.testBit 5 :=
    fun x => testBit_land_right_true x (by decide)
  have l5 : ∀ x : Nat, (x &&& 0xdf).testBit 5 = false :=
    fun x => testBit_land_right_false x (by decide)
  have l57 : ∀ x : Nat, (x &&& 0xdf).testBit 7 = x.testBit 7 :=
    fun x => testBit_land_right_true x (by decide)
  have l56 : ∀ x : Nat, (x &&& 0xdf).testBit 6 = x.testBit 6 :=
    fun x => testBit_land_right_true x (by decide)
  have keyI : ∀ t : HC05, t.tsrSeen.testBit 7 = false →
      (icr_r t false 1).2 = { t with inhibitCap := false } := by
    intro t ht
    rw [icr_r_low_eq, ht]
    simp
  have keyO : ∀ t : HC05, t.tsrSeen.testBit 6 = false → (ocr_r t false 1).2 = t := by
    intro t ht
    rw [ocr_r_low_eq, ht]
    simp
  have keyT : ∀ t : HC05, t.tsrSeen.testBit 5 = false →
      (timer_r t false 1).2 = { t with trlLatched0 := false } := by
    intro t ht
    rw [timer_r_trl_eq, ht]
    simp
  refine ⟨rfl, rfl, ?_, ?_, ?_, ?_, ?_, ?_, ?_, ?_, ?_, ?_, ?_, ?_, ?_, ?_, ?_, ?_,
    rfl, rfl, rfl, ?_, ?_, ?_⟩
  · rw [icr_r_low_eq]
    cases h : s.tsrSeen.testBit 7 <;> simp [h]
    all_goals try (split <;> simp [l7])
  · rw [icr_r_low_eq]
    cases h : s.tsrSeen.testBit 7 <;> simp [h]
    all_goals try (split <;> simp [l76])
  · rw [icr_r_low_eq]
    cases h : s.tsrSeen.testBit 7 <;> simp [h]
    all_goals try (split <;> simp [l75])
  · rw [ocr_r_low_eq]
    cases h : s.tsrSeen.testBit 6 <;> simp [h]
    all_goals try (split <;> simp [l6])
  · rw [ocr_r_low_eq]
    cases h : s.tsrSeen.testBit 6 <;> simp [h]
    all_goals try (split <;> simp [l67])
  · rw [ocr_r_low_eq]
    cases h : s.tsrSeen.testBit 6 <;> simp [h]
    all_goals try (split <;> simp [l65])
  · rw [ocr_w_low_eq]
    cases h : s.tsrSeen.testBit 6 <;> simp [h]
    all_goals try (split <;> simp [l6])
  · rw [ocr_w_low_eq]
    cases h : s.tsrSeen.testBit 6 <;> simp [h]
    all_goals try (split <;> simp [l67])
  · rw [ocr_w_low_eq]
    cases h : s.tsrSeen.testBit 6 <;> simp [h]
    all_goals try (split <;> simp [l65])
  · rw [timer_r_trl_eq]
    cases h : s.tsrSeen.testBit 5 <;> simp [h]
    all_goals try (split <;> simp [l5])
  · rw [timer_r_trl_eq]
    cases h : s.tsrSeen.testBit 5 <;> simp [h]
    all_goals try (split <;> simp [l57])
  · rw [timer_r_trl_eq]
    cases h : s.tsrSeen.testBit 5 <;> simp [h]
    all_goals try (split <;> simp [l56])
  · rw [timer_r_atrl_eq]
  · rw [timer_r_atrl_eq]
  · rw [timer_r_trh_eq]
    split <;> rfl
  · rw [timer_r_trh_eq]
    split <;> rfl
  · rw [icr_r_low_eq s]
    cases h : s.tsrSeen.testBit 7 <;> simp [h]
    · exact keyI _ h
    · split
      · exact keyI _ (l7 _)
      · exact keyI _ (l7 _)
  · rw [ocr_r_low_eq s]
    cases h : s.tsrSeen.testBit 6 <;> simp [h]
    · exact keyO _ h
    · split
      · exact keyO _ (l6 _)
      · exact keyO _ (l6 _)
  · rw [timer_r_trl_eq s]
    cases h : s.tsrSeen.testBit 5 <;> simp [h]
    · exact keyT _ h
    · split
      · exact keyT _ (l5 _)
      · exact keyT _ (l5 _)

theorem testBit_ff (j : Nat) : (0xff : Nat).testBit j = decide (j < 8) := by
  have h : (0xff : Nat) = 2 ^ 8 - 1 := by norm_num
  rw [h, Nat.testBit_two_pow_sub_one]

theorem testBit_false_of_lt_256 {dd : Nat} (h : dd < 256) {j : Nat} (hj : ¬ j < 8) :
    dd.testBit j = false := by
  apply Nat.testBit_eq_false_of_lt
  calc dd < 256 := h
    _ = 2 ^ 8 := by norm_num
    _ ≤ 2 ^ j := Nat.pow_le_pow_right (by norm_num) (Nat.le_of_not_lt hj)

theorem visible_eq_iff (inp l l' dd : Nat) (hd : dd < 256) :
    (((inp &&& (dd ^^^ 0xff)) ||| (l' &&& dd)) = ((inp &&& (dd ^^^ 0xff)) ||| (l &&& dd))) ↔
      (l' ^^^ l) &&& dd = 0 := by
  constructor
  · intro h
    apply Nat.eq_of_testBit_eq
    intro j
    have hj := congrArg (fun x => Nat.testBit x j) h
    simp only [Nat.testBit_lor, Nat.testBit_land, Nat.testBit_xor, Nat.zero_testBit] at hj ⊢
    by_cases h8 : j < 8
    · rw [testBit_ff] at hj
      simp [h8] at hj
      revert hj
      cases dd.testBit j <;> cases inp.testBit j <;> cases l.testBit j <;>
        cases l'.testBit j <;> simp
    · rw [testBit_false_of_lt_256 hd h8, Bool.and_false]
  · intro h
    apply Nat.eq_of_testBit_eq
    intro j
    have hj := congrArg (fun x => Nat.testBit x j) h
    simp only [Nat.testBit_lor, Nat.testBit_land, Nat.testBit_xor, Nat.zero_testBit] at hj ⊢
    revert hj
    cases dd.testBit j <;> cases inp.testBit j <;> cases l.testBit j <;>
      cases l'.testBit j <;> simp

/-- C8 counterexample: the claim says the output callback is invoked
exactly once per change of the externally visible value on an
output-configured bit, but a DDR write that changes the direction mask
invokes the callback even when the visible value is unchanged: with input
latch and output latch both 0xff, switching bit 0 to output leaves the
visible value at 0xff yet fires the callback. -/
theorem c8_counterexample :
    (port_ddr_w s0 0 0x01).2.isSome = true ∧
    port_value (port_ddr_w s0 0 0x01).1 0 = port_value s0 0 := by decide

/-- C8 amended: the externally visible port value is always (sampled
input AND NOT DDR) OR (output latch AND DDR); a data-latch write invokes
the output callback exactly when the visible value changes (equivalently,
when an output-configured latch bit changes), passing the newly composed
visible value and the DDR mask; a DDR write invokes the callback exactly
when the DDR value changes, even if the visible value does not, passing
the newly composed visible value and the new DDR mask. -/
theorem c8_port_io (s : HC05) (i d : Nat)
    (hd : portGet s.portDdr (i &&& 3) < 256)
    (hl : s.portLatch.length = 4) :
    port_value s (i &&& 3) =
      ((portGet s.portInput (i &&& 3) &&& (portGet s.portDdr (i &&& 3) ^^^ 0xff)) |||
        (portGet s.portLatch (i &&& 3) &&& portGet s.portDdr (i &&& 3))) ∧
    ((port_latch_w s i d).2 = none ↔
      port_value (port_latch_w s i d).1 (i &&& 3) = port_value s (i &&& 3)) ∧
    ((port_latch_w s i d).2 ≠ none →
      (port_latch_w s i d).2 =
        some (port_value (port_latch_w s i d).1 (i &&& 3), portGet s.portDdr (i &&& 3))) ∧
    ((port_ddr_w s i d).2 = none ↔
      d &&& portGet s.portBits (i &&& 3) = portGet s.portDdr (i &&& 3)) ∧
    ((port_ddr_w s i d).2 ≠ none →
      (port_ddr_w s i d).2 =
        some (port_value (port_ddr_w s i d).1 (i &&& 3),
          portGet (port_ddr_w s i d).1.portDdr (i &&& 3))) := by
  have hk4 : i &&& 3 < 4 := Nat.lt_succ_of_le Nat.and_le_right
  have hlen : i &&& 3 < s.portLatch.length := by rw [hl]; exact hk4
  have hset : portGet (s.portLatch.set (i &&& 3) (d &&& portGet s.portBits (i &&& 3)))
      (i &&& 3) = d &&& portGet s.portBits (i &&& 3) := by
    simp [portGet, List.getD_eq_getElem?_getD, List.getElem?_set_self', hlen]
  have hvis : port_value (port_latch_w s i d).1 (i &&& 3) = port_value s (i &&& 3) ↔
      ((d &&& portGet s.portBits (i &&& 3)) ^^^ portGet s.portLatch (i &&& 3)) &&&
        portGet s.portDdr (i &&& 3) = 0 := by
    have h2 : (port_latch_w s i d).1.portLatch =
        s.portLatch.set (i &&& 3) (d &&& portGet s.portBits (i &&& 3)) := by
      simp only [port_latch_w]
      split <;> rfl
    have h3 : (port_latch_w s i d).1.portInput = s.portInput := by
      simp only [port_latch_w]
      split <;> rfl
    have h4 : (port_latch_w s i d).1.portDdr = s.portDdr := by
      simp only [port_latch_w]
      split <;> rfl
    have hbase : port_value (port_latch_w s i d).1 (i &&& 3) =
        ((portGet s.portInput (i &&& 3) &&& (portGet s.portDdr (i &&& 3) ^^^ 0xff)) |||
          ((d &&& portGet s.portBits (i &&& 3)) &&& portGet s.portDdr (i &&& 3))) := by
      unfold port_value
      rw [h2, h3, h4, hset]
    rw [hbase]
    unfold port_value
    exact visible_eq_iff _ _ _ _ hd
  refine ⟨rfl, ?_, ?_, ?_, ?_⟩
  · rw [hvis]
    simp only [port_latch_w]
    by_cases hc : (portGet s.portLatch (i &&& 3) ^^^ (d &&& portGet s.portBits (i &&& 3))) &&&
        portGet s.portDdr (i &&& 3) = 0
    · refine iff_of_true ?_ ?_
      · rw [if_neg (fun hne => hne hc)]
      · rw [Nat.xor_comm]
        exact hc
    · refine iff_of_false ?_ ?_
      · rw [if_pos hc]
        simp
      · intro h
        apply hc
        rw [Nat.xor_comm] at h
        exact h
  · intro hne
    simp only [port_latch_w] at hne ⊢
    by_cases hc : (portGet s.portLatch (i &&& 3) ^^^ (d &&& portGet s.portBits (i &&& 3))) &&&
        portGet s.portDdr (i &&& 3) = 0
    · rw [if_neg (fun hne2 => hne2 hc)] at hne
      exact absurd rfl hne
    · rw [if_pos hc] at hne ⊢
  · simp only [port_ddr_w]
    by_cases hc : d &&& portGet s.portBits (i &&& 3) = portGet s.portDdr (i &&& 3)
    · exact iff_of_true (by rw [if_neg (fun hne => hne hc)]) hc
    · refine iff_of_false ?_ hc
      rw [if_pos hc]
      simp
  · intro hne
    simp only [port_ddr_w] at hne ⊢
    by_cases hc : d &&& portGet s.portBits (i &&& 3) = portGet s.portDdr (i &&& 3)
    · rw [if_neg (fun hne2 => hne2 hc)] at hne
      exact absurd rfl hne
    · rw [if_pos hc] at hne ⊢

/-- Witness for the amended C8 theorem: the visible-value composition at
a concrete state and port, with the hypotheses discharged by evaluation. -/
theorem c8_port_io_witness :
    port_value s0 (0 &&& 3) =
      ((portGet s0.portInput (0 &&& 3) &&& (portGet s0.portDdr (0 &&& 3) ^^^ 0xff)) |||
        (portGet s0.portLatch (0 &&& 3) &&& portGet s0.portDdr (0 &&& 3))) ∧
    ((port_latch_w s0 0 0x12).2 = none ↔
      port_value (port_latch_w s0 0 0x12).1 (0 &&& 3) = port_value s0 (0 &&& 3)) :=
  ⟨(c8_port_io s0 0 0x12 (by decide) (by decide)).1,
   (c8_port_io s0 0 0x12 (by decide) (by decide)).2.1⟩

/-- C6 counterexample: the claim says the external interrupt line is
vectored with priority above the timer, but the external-line service
path is disabled in the code: with only the external line pending and
interrupts unmasked, interrupt() reaches the fatal "Unknown pending
interrupt" path instead of vectoring. -/
theorem c6_counterexample :
    interrupt exMem exC6 = Except.error "Unknown pending interrupt" := by rfl

/-- C6 amended: an interrupt is serviced only when a recognised pending
bit is set and the interrupt mask flag is clear; on service the core
pushes PC low, PC high, X, A and CC in that order, sets the mask flag,
notifies the acknowledge callback, vectors through the timer vector at
0xfff8, charges a fixed 10-cycle penalty that itself advances the timer
and watchdog accounting, and decrements the stack pointer five slots
within its window; only the timer line is vectored — any other pending
bit in the recognised mask (including the external interrupt line, whose
handler is disabled) is a fatal internal error. -/
theorem c6_interrupt (mem : Nat → Nat) (m : Machine) :
    (m.hc.pendingInterrupts &&& intMask = 0 → interrupt mem m = Except.ok (m, [], false)) ∧
    (m.cc &&& IFLAG ≠ 0 → interrupt mem m = Except.ok (m, [], false)) ∧
    (m.hc.pendingInterrupts &&& intMask ≠ 0 → m.cc &&& IFLAG = 0 →
      m.hc.pendingInterrupts.testBit tcapLine = true →
      interrupt mem m = Except.ok
        ({ m with
            hc := (burn_cycles m.hc 10).state
            pc := ((mem M68HC05_VECTOR_TIMER &&& 0xff) <<< 8) |||
              (mem (M68HC05_VECTOR_TIMER + 1) &&& 0xff)
            cc := m.cc ||| IFLAG
            sp := spPush (spPush (spPush (spPush (spPush m.sp))))
            icount := m.icount - 10 },
          [m.pc &&& 0xff, (m.pc >>> 8) &&& 0xff, m.x, m.a, m.cc], true)) ∧
    (m.hc.pendingInterrupts &&& intMask ≠ 0 → m.cc &&& IFLAG = 0 →
      m.hc.pendingInterrupts.testBit tcapLine = false →
      interrupt mem m = Except.error "Unknown pending interrupt") := by
  refine ⟨fun h1 => ?_, fun h1 => ?_, fun h1 h2 h3 => ?_, fun h1 h2 h3 => ?_⟩
  · simp [interrupt, h1]
  · by_cases h0 : m.hc.pendingInterrupts &&& intMask = 0 <;> simp [interrupt, h0, h1]
  · simp [interrupt, h1, h2, h3]
  · simp [interrupt, h1, h2, h3]

/-- Witness for the amended C6 theorem: a serviced timer interrupt and a
fatal external-line case at concrete machines. -/
theorem c6_interrupt_witness :
    interrupt exMem exC6T = Except.ok
      ({ exC6T with
          hc := (burn_cycles exC6T.hc 10).state
          pc := ((exMem M68HC05_VECTOR_TIMER &&& 0xff) <<< 8) |||
            (exMem (M68HC05_VECTOR_TIMER + 1) &&& 0xff)
          cc := exC6T.cc ||| IFLAG
          sp := spPush (spPush (spPush (spPush (spPush exC6T.sp))))
          icount := exC6T.icount - 10 },
        [exC6T.pc &&& 0xff, (exC6T.pc >>> 8) &&& 0xff, exC6T.x, exC6T.a, exC6T.cc], true) ∧
    interrupt exMem exC6 = Except.error "Unknown pending interrupt" :=
  ⟨(c6_interrupt exMem exC6T).2.2.1 (by decide) (by decide) (by decide),
   (c6_interrupt exMem exC6).2.2.2 (by decide) (by decide) (by decide)⟩

/-- The invariant only depends on the control register, the status
register and the pending mask. -/
theorem TcapInv_of_fields {s t : HC05} (h : TcapInv s) (h1 : t.tcr = s.tcr)
    (h2 : t.tsr = s.tsr) (h3 : t.pendingInterrupts = s.pendingInterrupts) : TcapInv t := by
  intro hp
  unfold TcapInv tcapCond at *
  rw [h1, h2]
  rw [h3] at hp
  exact h hp

theorem TcapInv_clear (s : HC05) : TcapInv (clearTcapPending s) := by
  intro hp
  rw [clearTcapPending_testBit] at hp
  exact absurd hp (by simp)

theorem TcapInv_pend_masked {t : HC05} {u : Nat}
    (h : t.pendingInterrupts = u &&& (0xffff ^^^ (1 <<< tcapLine))) : TcapInv t := by
  intro hp
  rw [h, testBit_land_right_false _ (by decide)] at hp
  exact absurd hp (by simp)

theorem TcapInv_tcr_w (s : HC05) (d : Nat) (_h : TcapInv s) : TcapInv (tcr_w s d) := by
  simp only [tcr_w]
  split
  · rename_i hcond
    exact fun _ => hcond
  · exact TcapInv_clear _

theorem TcapInv_tsr_r (s : HC05) (dbg : Bool) (h : TcapInv s) : TcapInv (tsr_r s dbg).2 := by
  cases dbg <;> exact TcapInv_of_fields h rfl rfl rfl

theorem TcapInv_icr_r (s : HC05) (dbg : Bool) (off : Nat) (h : TcapInv s) :
    TcapInv (icr_r s dbg off).2 := by
  cases hd : dbg <;> cases hl : off.testBit 0 <;> cases h7 : s.tsrSeen.testBit 7 <;>
    simp only [icr_r, hd, hl, h7, Bool.not_false, Bool.not_true, if_true, if_false,
      Bool.false_eq_true, Bool.true_eq_false, ite_true, ite_false]
  all_goals first
    | exact TcapInv_of_fields h rfl rfl rfl
    | (split <;>
        first
          | exact TcapInv_of_fields h rfl rfl rfl
          | exact TcapInv_pend_masked rfl
          | (rename_i hcond; exact fun _ => hcond))

theorem TcapInv_ocr_r (s : HC05) (dbg : Bool) (off : Nat) (h : TcapInv s) :
    TcapInv (ocr_r s dbg off).2 := by
  cases hd : dbg <;> cases hl : off.testBit 0 <;> cases h6 : s.tsrSeen.testBit 6 <;>
    simp only [ocr_r, hd, hl, h6, Bool.not_false, Bool.not_true, Bool.false_and,
      Bool.true_and, Bool.and_false, Bool.and_true, if_true, if_false,
      Bool.false_eq_true, Bool.true_eq_false, ite_true, ite_false]
  all_goals first
    | exact TcapInv_of_fields h rfl rfl rfl
    | (split <;>
        first
          | exact TcapInv_of_fields h rfl rfl rfl
          | exact TcapInv_pend_masked rfl
          | (rename_i hcond; exact fun _ => hcond))

theorem TcapInv_ocr_w (s : HC05) (dbg : Bool) (off d : Nat) (h : TcapInv s) :
    TcapInv (ocr_w s dbg off d) := by
  cases hd : dbg <;> cases hl : off.testBit 0 <;> cases h6 : s.tsrSeen.testBit 6 <;>
    simp only [ocr_w, hd, hl, h6, Bool.not_false, Bool.not_true, if_true, if_false,
      Bool.false_eq_true, Bool.true_eq_false, ite_true, ite_false]
  all_goals first
    | exact TcapInv_of_fields h rfl rfl rfl
    | (split <;>
        first
          | exact TcapInv_of_fields h rfl rfl rfl
          | exact TcapInv_pend_masked rfl
          | (rename_i hcond; exact fun _ => hcond))

theorem TcapInv_timer_r (s : HC05) (dbg : Bool) (off : Nat) (h : TcapInv s) :
    TcapInv (timer_r s dbg off).2 := by
  cases hd : dbg <;> cases hl : off.testBit 0 <;> cases ha : off.testBit 1 <;>
    cases h5 : s.tsrSeen.testBit 5 <;>
    simp only [timer_r, setTrlLatched, setTrlBuf, trlLatched, hd, hl, ha, h5,
      Bool.not_false, Bool.not_true, Bool.false_and, Bool.true_and, Bool.and_false,
      Bool.and_true, if_true, if_false, Bool.false_eq_true, Bool.true_eq_false,
      ite_true, ite_false]
  all_goals first
    | exact TcapInv_of_fields h rfl rfl rfl
    | (split <;>
        first
          | exact TcapInv_of_fields h rfl rfl rfl
          | exact TcapInv_pend_masked rfl
          | (rename_i hcond; exact fun _ => hcond))



theorem TcapInv_coprst_w (s : HC05) (d : Nat) (h : TcapInv s) : TcapInv (coprst_w s d) := by
  apply TcapInv_of_fields h <;> (simp only [coprst_w]; repeat' split) <;> rfl

theorem TcapInv_copcr_r (s : HC05) (dbg : Bool) (h : TcapInv s) :
    TcapInv (copcr_r s dbg).2 :=
  TcapInv_of_fields h rfl rfl rfl

theorem TcapInv_copcr_w (s : HC05) (d : Nat) (h : TcapInv s) : TcapInv (copcr_w s d) :=
  TcapInv_of_fields h rfl rfl rfl

theorem TcapInv_copr_w (s : HC05) (d : Nat) (h : TcapInv s) : TcapInv (copr_w s d) := by
  apply TcapInv_of_fields h <;> (simp only [copr_w]; repeat' split) <;> rfl

theorem TcapInv_port_latch_w (s : HC05) (i d : Nat) (h : TcapInv s) :
    TcapInv (port_latch_w s i d).1 := by
  apply TcapInv_of_fields h <;> (simp only [port_latch_w]; repeat' split) <;> rfl

theorem TcapInv_port_ddr_w (s : HC05) (i d : Nat) (h : TcapInv s) :
    TcapInv (port_ddr_w s i d).1 := by
  apply TcapInv_of_fields h <;> (simp only [port_ddr_w]; repeat' split) <;> rfl

theorem TcapInv_burn (s : HC05) (count : Nat) (h : TcapInv s) :
    TcapInv (burn_cycles s count).state := by
  intro hp
  have hp2 : (pendB s count).testBit tcapLine = true := hp
  show s.tcr &&& tsrB s count &&& 0xe0 ≠ 0
  unfold pendB at hp2
  by_cases hc : s.tcr &&& tsrB s count &&& 0xe0 ≠ 0
  · exact hc
  · rw [if_neg hc] at hp2
    have hcond := h hp2
    apply absurd ?_ hc
    unfold tsrB
    split
    · split
      · exact land_lor_mono _ (land_lor_mono _ hcond)
      · exact land_lor_mono _ hcond
    · split
      · exact land_lor_mono _ hcond
      · exact hcond

theorem TcapInv_set_input (s : HC05) (n : Nat) (b : Bool) (h : TcapInv s) :
    TcapInv (execute_set_input s n b) := by
  by_cases htc : n = tcapLine
  · simp only [execute_set_input]
    rw [if_pos htc]
    split
    · split
      · split
        · rename_i hcond
          exact fun _ => hcond
        · intro hp
          exact land_lor_mono _ (h hp)
      · exact TcapInv_of_fields h rfl rfl rfl
    · exact TcapInv_of_fields h rfl rfl rfl
  · simp only [execute_set_input]
    rw [if_neg htc]
    split
    · split
      · intro hp
        have hp2 : (s.pendingInterrupts ||| (1 <<< n)).testBit tcapLine = true := hp
        rw [testBit_lor_shift_ne _ htc] at hp2
        exact h hp2
      · exact TcapInv_of_fields h rfl rfl rfl
    · exact h



theorem TcapInv_stepEv (s : HC05) (e : Ev) (h : TcapInv s) : TcapInv (stepEv s e) := by
  cases e with
  | tcrW d => exact TcapInv_tcr_w s d h
  | tsrR => exact TcapInv_tsr_r s false h
  | icrR off => exact TcapInv_icr_r s false off h
  | ocrR off => exact TcapInv_ocr_r s false off h
  | ocrW off d => exact TcapInv_ocr_w s false off d h
  | timerR off => exact TcapInv_timer_r s false off h
  | coprstW d => exact TcapInv_coprst_w s d h
  | copcrR => exact TcapInv_copcr_r s false h
  | copcrW d => exact TcapInv_copcr_w s d h
  | coprW d => exact TcapInv_copr_w s d h
  | portLatchW i d => exact TcapInv_port_latch_w s i d h
  | portDdrW i d => exact TcapInv_port_ddr_w s i d h
  | setInput n st => exact TcapInv_set_input s n st h
  | burn n => exact TcapInv_burn s n h

theorem TcapInv_runEv (evs : List Ev) (s : HC05) (h : TcapInv s) : TcapInv (runEv s evs) := by
  induction evs generalizing s with
  | nil => exact h
  | cons e es ih => exact ih (stepEv s e) (TcapInv_stepEv s e h)

theorem TcapInv_interrupt (mem : Nat → Nat) (m : Machine) (out : Machine × List Nat × Bool)
    (h : TcapInv m.hc) (he : interrupt mem m = Except.ok out) : TcapInv out.1.hc := by
  unfold interrupt at he
  by_cases h1 : m.hc.pendingInterrupts &&& intMask ≠ 0
  · rw [if_pos h1] at he
    by_cases h2 : m.cc &&& IFLAG = 0
    · rw [if_pos h2] at he
      cases h3 : m.hc.pendingInterrupts.testBit tcapLine
      · rw [h3] at he
        simp at he
      · rw [h3] at he
        simp only [if_true, ite_true] at he
        injection he with he
        rw [← he]
        exact TcapInv_burn m.hc 10 h
    · rw [if_neg h2] at he
      injection he with he
      rw [← he]
      exact h
  · rw [if_neg h1] at he
    injection he with he
    rw [← he]
    exact h



/-- C7 counterexample: the claim says a pending bit is cleared when its
enabling condition is no longer true, but deasserting an external
interrupt line does not clear its pending bit: after assert followed by
deassert the line state latch is clear while the pending bit stays set. -/
theorem c7_counterexample :
    (execute_set_input (execute_set_input s0 irqLine true) irqLine
      false).pendingInterrupts.testBit irqLine = true ∧
    (execute_set_input (execute_set_input s0 irqLine true) irqLine
      false).irqState.testBit irqLine = false := by decide

/-- C7 amended: the timer pending bit, once set, always implies its
enabling condition (an enabled timer status flag) — an invariant
preserved by every register access, line transition and cycle-accounting
step, and by interrupt servicing, so in particular after the timer
interrupt is serviced the bit can only remain set while the condition
still holds; deasserting an external interrupt line never clears its
pending bit (external bits are set on assertion and cleared only by the
disabled service path, i.e. never). -/
theorem c7_pending_mask :
    (∀ (s : HC05) (evs : List Ev), TcapInv s → TcapInv (runEv s evs)) ∧
    (∀ (s : HC05) (n : Nat), n ≠ tcapLine →
      (execute_set_input s n false).pendingInterrupts = s.pendingInterrupts) ∧
    (∀ (mem : Nat → Nat) (m : Machine) (out : Machine × List Nat × Bool),
      TcapInv m.hc → interrupt mem m = Except.ok out → TcapInv out.1.hc) := by
  refine ⟨fun s evs h => TcapInv_runEv evs s h, ?_,
    fun mem m out h he => TcapInv_interrupt mem m out h he⟩
  intro s n hn
  simp only [execute_set_input]
  rw [if_neg hn]
  split
  · rfl
  · rfl

/-- Witness for the amended C7 theorem: the invariant carried across a
concrete event sequence, and deassert leaving the pending mask unchanged
at a concrete state. -/
theorem c7_pending_mask_witness :
    TcapInv (runEv s0 [Ev.setInput tcapLine true, Ev.burn 100, Ev.tsrR, Ev.timerR 1]) ∧
    (execute_set_input s0 irqLine false).pendingInterrupts = s0.pendingInterrupts :=
  ⟨c7_pending_mask.1 s0 _ (by decide), c7_pending_mask.2.1 s0 irqLine (by decide)⟩

/-- Witness for the amended C10 theorem: reset clears bit 0 of TCR and
bit 0 of COPCR on a concrete state. -/
theorem c10_device_reset_witness :
    (device_reset exC10).tcr.testBit 0 = false ∧
    (device_reset exC10).copcr.testBit 0 = false :=
  ⟨(c10_device_reset exC10 0 0).1 (by decide),
   (c10_device_reset exC10 0 0).2.1 (by decide)⟩

end M68HC05
